import Mathlib

/-!
Verification of `perceiver/data/text/common.py` (Borda/perceiver-io).

The file shallowly embeds the data model and operations of the text data
module: the `chunk` closure of `TextDataModule._chunk_dataset`, the cache-key
construction `preproc_dir_hash_input` / `preproc_dir`, the constructor
validation, `_prepare_dataset`, `prepare_data`, `_train_valid_split`, the
wrapper datasets `RandomShiftDataset` and `CLMDataset`, and the
`TextPreprocessor` single/batch entry points.

Conventions of the embedding:
  - Python lists of token ids become `List Int`; a column of a processing
    batch (one list per example) becomes `List (List Int)`.
  - Python slices `t[i : i + n]` become `(t.drop i).take n`; `t[:-1]` becomes
    `t.dropLast`; `t[1:]` becomes `t.drop 1`.
  - `range(0, n, step)` (step > 0) becomes `pyRange n step`.
  - External collaborators (the Hugging Face tokenizer, the `datasets`
    map/shuffle engine, `hashlib`, `torch.randint`) are passed in as explicit
    function parameters, so theorems quantify over their behaviour.
  - Fallible code returns `Except String _` or `Option _`; a Python
    `raise` / `assert` failure is an `Except.error`.
-/

namespace PerceiverText

/-- The `Task` enum of common.py: `mlm = 0`, `clm = 1`, `clf = 2`. -/
inductive Task where
  | mlm
  | clm
  | clf
deriving DecidableEq, Repr

/-- Python's `Enum.name` for `Task`. -/
def Task.name : Task → String
  | .mlm => "mlm"
  | .clm => "clm"
  | .clf => "clf"

/-- Rendering of a Python `bool` inside an f-string (`f"{b}"`). -/
def pyBool (b : Bool) : String :=
  if b then "True" else "False"

/-- Constructor configuration of `TextDataModule` (its `hparams`), one field
per constructor parameter.  `mask_prob` is a Python float that the embedded
code only ever interpolates into an f-string, so it is carried here as its
decimal rendering (Python `repr`, which is injective on floats).
`source_train_size` / `source_valid_size` are optional hparams contributed by
subclasses and read with `hparams.get`, absent (`none`) in the base class. -/
structure Config where
  dataset_dir : String
  tokenizer : String
  max_seq_len : Nat
  task : Task
  mask_prob : String
  mask_words : Bool
  static_masking : Bool
  add_special_tokens : Bool
  add_eos_token : Bool
  padding_side : Option String
  random_train_shift : Bool
  random_valid_shift : Bool
  random_train_truncation : Bool
  random_valid_truncation : Bool
  random_min_seq_len : Nat
  preproc_batch_size : Nat
  preproc_workers : Option Nat
  batch_size : Nat
  valid_batch_size : Option Nat
  num_workers : Nat
  pin_memory : Bool
  source_train_size : Option Nat
  source_valid_size : Option Nat
deriving DecidableEq, Repr

/-- The `random_shift` property: `random_train_shift or random_valid_shift`. -/
def random_shift (c : Config) : Bool :=
  c.random_train_shift || c.random_valid_shift

/-- Python `range(0, n, step)` for `step > 0`: the offsets
`0, step, 2*step, ...` strictly below `n`. -/
def pyRange (n step : Nat) : List Nat :=
  (List.range ((n + step - 1) / step)).map (· * step)

/-- The `chained_len` computation of `chunk`: the length of the first field's
concatenation; truncated down to a multiple of `chunk_size` only when it is
at least `chunk_size` (`if chained_len >= chunk_size`). -/
def chunkTruncLen (chainedLen chunkSize : Nat) : Nat :=
  if chainedLen ≥ chunkSize then chainedLen / chunkSize * chunkSize else chainedLen

/-- The inner `chunk` closure of `TextDataModule._chunk_dataset`.  `args` is
the tuple of field columns, in `include_keys` order (each column holds one
list per example of the processing batch).  It concatenates each field across
the batch (`chained`), computes `chained_len` from the first field, and emits
the slices `t[i : i + chunk_size]` for `i in range(0, chained_len,
chunk_size)` for every field (the source would raise on an empty
`include_keys`; `headD []` stands for `chained[include_keys[0]]`). -/
def chunk (chunkSize : Nat) (args : List (List (List Int))) : List (List (List Int)) :=
  let chained := args.map List.flatten
  let chainedLen := chunkTruncLen (chained.headD []).length chunkSize
  chained.map (fun t => (pyRange chainedLen chunkSize).map (fun i => (t.drop i).take chunkSize))

/-- Consecutive size-`c` slices starting at `0, c, ..., (m-1)*c` of a list
that has at least `m * c` elements: their concatenation is the first `m * c`
elements and every slice has length exactly `c`. -/
theorem chunkSlices_spec (c : Nat) (t : List Int) :
    ∀ m : Nat, m * c ≤ t.length →
      ((List.range m).map (fun i => (t.drop (i * c)).take c)).flatten = t.take (m * c)
      ∧ ∀ ch ∈ (List.range m).map (fun i => (t.drop (i * c)).take c), ch.length = c := by
  intro m
  induction m with
  | zero => simp
  | succ m ih =>
    intro h
    have hmc : m * c + c ≤ t.length := by rw [Nat.succ_mul] at h; exact h
    have hm : m * c ≤ t.length := by omega
    obtain ⟨ihflat, ihlen⟩ := ih hm
    rw [List.range_succ, List.map_append, List.flatten_append]
    constructor
    · rw [ihflat]
      simp only [List.map_cons, List.map_nil, List.flatten_cons, List.flatten_nil,
        List.append_nil]
      rw [Nat.succ_mul, List.take_add]
    · intro ch hch
      rcases List.mem_append.mp hch with hl | hr
      · exact ihlen ch hl
      · simp only [List.map_cons, List.map_nil, List.mem_singleton] at hr
        subst hr
        rw [List.length_take, List.length_drop]
        omega

/-- Arithmetic of the emitted-chunk count when at least one full chunk fits:
`range(0, (L // C) * C, C)` has exactly `L // C` elements. -/
theorem chunkCount_ge (L C : Nat) (hC : 0 < C) :
    (L / C * C + C - 1) / C = L / C := by
  have h1 : L / C * C + C - 1 = (C - 1) + L / C * C := by omega
  rw [h1, Nat.add_mul_div_right _ _ hC, Nat.div_eq_of_lt (by omega)]
  omega

/-- C5: For every sequence, chunking it with `chunk_size = 1` and
reconcatenating the emitted chunks in order yields the original sequence
unchanged. -/
theorem chunk_size_one_roundtrip (batch : List (List Int)) :
    ((chunk 1 [batch]).headD []).flatten = batch.flatten := by
  have hlen : chunkTruncLen batch.flatten.length 1 = batch.flatten.length := by
    unfold chunkTruncLen
    split <;> omega
  have hcount : (batch.flatten.length + 1 - 1) / 1 = batch.flatten.length := by omega
  have h := chunkSlices_spec 1 batch.flatten batch.flatten.length (by omega)
  simp only [chunk, pyRange, hlen, hcount, List.map_map, List.map_cons, List.headD_cons]
  have hfun : ((fun i => (batch.flatten.drop i).take 1) ∘ (· * 1))
      = fun i => (batch.flatten.drop (i * 1)).take 1 := rfl
  rw [hfun, h.1, Nat.mul_one, List.take_length]

/-- The first field's emitted chunk list (`input_ids` is the first include
key in both the MLM and the CLM pipeline configuration). -/
theorem chunk_head (C : Nat) (col0 : List (List Int)) (rest : List (List (List Int))) :
    (chunk C (col0 :: rest)).headD []
      = (pyRange (chunkTruncLen col0.flatten.length C) C).map
          (fun i => (col0.flatten.drop i).take C) := rfl

/-- C1 counterexample: for the single-field processing batch `[[5]]`
(concatenated length `L = 1`) and `chunk_size C = 2`, the claim demands
`floor(1/2) = 0` emitted chunks, each of length exactly 2; the code instead
emits one chunk `[5]` of length 1, because the `if chained_len >= chunk_size`
guard skips the truncation for short batches. -/
theorem chunking_exactness_counterexample :
    ¬ ((((chunk 2 [[[5]]] : List (List (List Int)))).headD []).length = 1 / 2
        ∧ ∀ ch ∈ ((chunk 2 [[[5]]] : List (List (List Int)))).headD [], ch.length = 2) := by
  decide

/-- C1 (amended): for a processing batch with concatenated first-field length
`L` and chunk size `C > 0`: when `L ≥ C` the chunk stage emits exactly
`floor(L/C)` chunks for every field, each first-field chunk has length
exactly `C`, and concatenating the emitted first-field (`input_ids`) chunks
in order reproduces the first `C * floor(L/C)` elements of the original
concatenation; when `L = 0` no chunk is emitted; when `0 < L < C` the stage
instead emits a single chunk that is the entire length-`L` concatenation. -/
theorem chunking_exactness_amended (C : Nat) (hC : 0 < C) (col0 : List (List Int))
    (rest : List (List (List Int))) :
    (C ≤ col0.flatten.length →
      ((chunk C (col0 :: rest)).headD []).length = col0.flatten.length / C
      ∧ (∀ ch ∈ (chunk C (col0 :: rest)).headD [], ch.length = C)
      ∧ (∀ cl ∈ chunk C (col0 :: rest), cl.length = col0.flatten.length / C)
      ∧ ((chunk C (col0 :: rest)).headD []).flatten
          = col0.flatten.take (C * (col0.flatten.length / C)))
    ∧ (0 < col0.flatten.length → col0.flatten.length < C →
        (chunk C (col0 :: rest)).headD [] = [col0.flatten])
    ∧ (col0.flatten.length = 0 → (chunk C (col0 :: rest)).headD [] = []) := by
  refine ⟨fun hL => ?_, fun hpos hlt => ?_, fun hzero => ?_⟩
  · have htrunc : chunkTruncLen col0.flatten.length C = col0.flatten.length / C * C := by
      unfold chunkTruncLen
      rw [if_pos hL]
    have hcount : (col0.flatten.length / C * C + C - 1) / C = col0.flatten.length / C :=
      chunkCount_ge col0.flatten.length C hC
    have hspec := chunkSlices_spec C col0.flatten (col0.flatten.length / C)
      (Nat.div_mul_le_self _ _)
    have hhead : (chunk C (col0 :: rest)).headD []
        = (List.range (col0.flatten.length / C)).map
            (fun i => (col0.flatten.drop (i * C)).take C) := by
      rw [chunk_head, pyRange, htrunc, hcount, List.map_map]
      rfl
    refine ⟨?_, ?_, ?_, ?_⟩
    · rw [hhead, List.length_map, List.length_range]
    · rw [hhead]
      exact hspec.2
    · intro cl hcl
      simp only [chunk, List.map_map, List.mem_map, Function.comp] at hcl
      obtain ⟨t, _, hteq⟩ := hcl
      subst hteq
      simp only [List.length_map, pyRange, List.length_range]
      have hh : ((List.map List.flatten (col0 :: rest)).headD []).length
          = col0.flatten.length := rfl
      rw [hh, htrunc, hcount]
    · rw [hhead, hspec.1, Nat.mul_comm]
  · have htrunc : chunkTruncLen col0.flatten.length C = col0.flatten.length := by
      unfold chunkTruncLen
      rw [if_neg (by omega)]
    have hcount : (col0.flatten.length + C - 1) / C = 1 :=
      Nat.div_eq_of_lt_le (by omega) (by omega)
    rw [chunk_head, pyRange, htrunc, hcount]
    have h1 : List.range 1 = [0] := rfl
    rw [h1]
    simp only [List.map_cons, List.map_nil, Nat.zero_mul, List.drop_zero]
    rw [List.take_of_length_le (by omega)]
  · have htrunc : chunkTruncLen col0.flatten.length C = 0 := by
      unfold chunkTruncLen
      rw [hzero, if_neg (by omega)]
    have hcount : (0 + C - 1) / C = 0 := Nat.div_eq_of_lt (by omega)
    rw [chunk_head, htrunc, pyRange, hcount]
    rfl

/-- C1 witness: the amended theorem evaluated on the concrete batch
`[[1,2,3],[4,5]]` (`L = 5`) with `C = 2`. -/
theorem chunking_exactness_amended_witness :
    ((chunk 2 [[[1, 2, 3], [4, 5]]] : List (List (List Int))).headD []).length = 5 / 2
    ∧ ((chunk 2 [[[1, 2, 3], [4, 5]]] : List (List (List Int))).headD []).flatten
        = ([[1, 2, 3], [4, 5]] : List (List Int)).flatten.take (2 * (5 / 2)) := by
  have h := (chunking_exactness_amended 2 (by decide) [[1, 2, 3], [4, 5]] []).1 (by decide)
  exact ⟨h.1, h.2.2.2⟩

/-- Appending a fixed string on the right is injective. -/
theorem string_append_right_cancel (s1 s2 t : String) (h : s1 ++ t = s2 ++ t) : s1 = s2 := by
  apply String.ext
  have h2 := congrArg String.data h
  rw [String.data_append, String.data_append] at h2
  exact List.append_cancel_right h2

/-- Appending a fixed string on the left is injective. -/
theorem string_append_left_cancel (s t1 t2 : String) (h : s ++ t1 = s ++ t2) : t1 = t2 := by
  apply String.ext
  have h2 := congrArg String.data h
  rw [String.data_append, String.data_append] at h2
  exact List.append_cancel_left h2

/-- A conditional suffix step of `preproc_dir_hash_input`
(`if flag: hash_input = f"{hash_input}{sfx}"`). -/
def optSuffix (cond : Bool) (sfx s : String) : String :=
  if cond then s ++ sfx else s

/-- An optional-size suffix step of `preproc_dir_hash_input`
(`if self.hparams.get(...) is not None: hash_input = f"{hash_input}{tag}{size}"`). -/
def sizeSuffix (size : Option Nat) (tag s : String) : String :=
  match size with
  | some n => s ++ tag ++ toString n
  | none => s

/-- `TextDataModule.preproc_dir_hash_input`: the string that is hashed into
the cache directory name, built exactly as in the source (base fields, the
masking fields only under static MLM masking, then the conditional
suffixes). -/
def preproc_dir_hash_input (c : Config) : String :=
  let hash_input := c.tokenizer ++ "-" ++ toString c.max_seq_len ++ "-" ++ c.task.name
    ++ "-" ++ pyBool (random_shift c)
  let hash_input :=
    if c.task = Task.mlm ∧ c.static_masking = true then
      hash_input ++ "-" ++ pyBool c.mask_words ++ "-" ++ c.mask_prob
    else hash_input
  let hash_input := optSuffix c.add_special_tokens "-st" hash_input
  let hash_input := optSuffix c.add_eos_token "-eos" hash_input
  let hash_input := sizeSuffix c.source_train_size "-ts-" hash_input
  sizeSuffix c.source_valid_size "-vs-" hash_input

/-- `TextDataModule.preproc_dir`: `os.path.join(dataset_dir, "preproc",
md5(hash_input).hexdigest())`.  The digest comes from the external `hashlib`
collaborator and is passed in as a function parameter. -/
def preproc_dir (digest : String → String) (c : Config) : String :=
  c.dataset_dir ++ "/preproc/" ++ digest (preproc_dir_hash_input c)

theorem optSuffix_inj (b : Bool) (t : String) {s1 s2 : String}
    (h : optSuffix b t s1 = optSuffix b t s2) : s1 = s2 := by
  cases b with
  | false => simpa [optSuffix] using h
  | true => exact string_append_right_cancel _ _ _ (by simpa [optSuffix] using h)

theorem sizeSuffix_inj (o : Option Nat) (tag : String) {s1 s2 : String}
    (h : sizeSuffix o tag s1 = sizeSuffix o tag s2) : s1 = s2 := by
  cases o with
  | none => simpa [sizeSuffix] using h
  | some n =>
    simp only [sizeSuffix] at h
    exact string_append_right_cancel _ _ _ (string_append_right_cancel _ _ _ h)

/-- Under static MLM masking, `preproc_dir_hash_input` is injective in
`mask_prob` when all other fields are held fixed. -/
theorem preproc_dir_hash_input_mask_prob_inj (c : Config) (p q : String)
    (htask : c.task = Task.mlm) (hsm : c.static_masking = true)
    (h : preproc_dir_hash_input {c with mask_prob := p}
        = preproc_dir_hash_input {c with mask_prob := q}) : p = q := by
  have hcond : c.task = Task.mlm ∧ c.static_masking = true := ⟨htask, hsm⟩
  simp only [preproc_dir_hash_input] at h
  rw [if_pos hcond, if_pos hcond] at h
  have h1 := optSuffix_inj _ _ (optSuffix_inj _ _ (sizeSuffix_inj _ _ (sizeSuffix_inj _ _ h)))
  exact string_append_left_cancel _ _ _ h1

/-- C2: identical configurations give the identical cache key; two
configurations that differ only in `mask_prob`, both with `task = mlm` and
`static_masking = true`, give different hash inputs, hence different cache
keys for an injective digest; two configurations that differ only in
`num_workers` give the identical cache key. -/
theorem cache_key_props (digest : String → String) (hinj : Function.Injective digest)
    (c1 c2 : Config) :
    (c1 = c2 → preproc_dir digest c1 = preproc_dir digest c2)
    ∧ (c2 = {c1 with mask_prob := c2.mask_prob} → c1.mask_prob ≠ c2.mask_prob →
        c1.task = Task.mlm → c1.static_masking = true →
        preproc_dir_hash_input c1 ≠ preproc_dir_hash_input c2
        ∧ preproc_dir digest c1 ≠ preproc_dir digest c2)
    ∧ (c2 = {c1 with num_workers := c2.num_workers} →
        preproc_dir digest c1 = preproc_dir digest c2) := by
  refine ⟨fun h => by rw [h], fun hupd hne htask hsm => ?_, fun hupd => ?_⟩
  · have hhash : preproc_dir_hash_input c1 ≠ preproc_dir_hash_input c2 := by
      intro hh
      apply hne
      have he1 : c1 = {c1 with mask_prob := c1.mask_prob} := rfl
      rw [he1, hupd] at hh
      exact preproc_dir_hash_input_mask_prob_inj c1 c1.mask_prob c2.mask_prob htask hsm hh
    refine ⟨hhash, fun hd => hhash ?_⟩
    have hdir : c2.dataset_dir = c1.dataset_dir := by rw [hupd]
    unfold preproc_dir at hd
    rw [hdir] at hd
    exact hinj (string_append_left_cancel _ _ _ hd)
  · rw [hupd]
    rfl

/-- A concrete configuration with the constructor's default values
(static MLM masking switched on), used by the witnesses. -/
def cfgA : Config where
  dataset_dir := "data"
  tokenizer := "bert-base-uncased"
  max_seq_len := 128
  task := Task.mlm
  mask_prob := "0.15"
  mask_words := true
  static_masking := true
  add_special_tokens := false
  add_eos_token := false
  padding_side := none
  random_train_shift := false
  random_valid_shift := false
  random_train_truncation := false
  random_valid_truncation := false
  random_min_seq_len := 16
  preproc_batch_size := 1000
  preproc_workers := none
  batch_size := 64
  valid_batch_size := none
  num_workers := 3
  pin_memory := true
  source_train_size := none
  source_valid_size := none

/-- The same configuration with a different masking probability. -/
def cfgB : Config := {cfgA with mask_prob := "0.25"}

/-- C2 witness: the cache-key theorem applied to two concrete configurations
that differ only in `mask_prob`, with the identity as (injective) digest. -/
theorem cache_key_props_witness : preproc_dir id cfgA ≠ preproc_dir id cfgB :=
  ((cache_key_props id (fun _ _ hab => hab) cfgA cfgB).2.1 rfl (by decide) rfl rfl).2

/-- Modelled from the spec: the external `datasets` engine's
`train_test_split`, the only collaborator used by
`TextDataModule._train_valid_split`.  With `shuffle=False` the contiguous
example order is preserved; with `shuffle=True` it first applies a
permutation, abstracted here as the parameter `perm`. -/
def train_test_split {α : Type} (perm : List α → List α) (ds : List α) (train_size : Nat)
    (shuffle : Bool) : List α × List α :=
  let d := if shuffle then perm ds else ds
  (d.take train_size, d.drop train_size)

/-- `TextDataModule._train_valid_split`: delegates to `train_test_split`
with `shuffle = not self.random_shift`. -/
def train_valid_split {α : Type} (perm : List α → List α) (c : Config) (ds : List α)
    (train_size : Nat) : List α × List α :=
  train_test_split perm ds train_size (!random_shift c)

/-- C6: `_train_valid_split` shuffles before partitioning if and only if
neither `random_train_shift` nor `random_valid_shift` is enabled; when either
shift option is enabled the split preserves the original example order
(contiguous take/drop of the unpermuted dataset), and when neither is enabled
the permutation is applied first. -/
theorem split_shuffle_iff {α : Type} (perm : List α → List α) (c : Config) (ds : List α)
    (n : Nat) :
    ((!random_shift c) = true ↔ c.random_train_shift = false ∧ c.random_valid_shift = false)
    ∧ ((c.random_train_shift = true ∨ c.random_valid_shift = true) →
        train_valid_split perm c ds n = (ds.take n, ds.drop n))
    ∧ (c.random_train_shift = false → c.random_valid_shift = false →
        train_valid_split perm c ds n = ((perm ds).take n, (perm ds).drop n)) := by
  unfold train_valid_split train_test_split random_shift
  refine ⟨?_, fun h => ?_, fun h1 h2 => ?_⟩
  · cases c.random_train_shift <;> cases c.random_valid_shift <;> simp
  · rcases h with h | h <;> simp [h]
  · simp [h1, h2]

/-- C6 witness: with `random_train_shift = true` the split keeps the original
order regardless of the permutation (here: `List.reverse`). -/
theorem split_shuffle_iff_witness :
    train_valid_split (fun l => l.reverse) {cfgA with random_train_shift := true}
      ([1, 2, 3, 4] : List Nat) 3 = ([1, 2, 3], [4]) := by
  have h := (split_shuffle_iff (fun l => l.reverse) {cfgA with random_train_shift := true}
    ([1, 2, 3, 4] : List Nat) 3).2.1 (Or.inl rfl)
  exact h.trans rfl

/-- The eager validation in `TextDataModule.__init__`: `static_masking and
not mask_words` raises `ValueError(...)` before anything else is built. -/
def init_check (c : Config) : Except String Unit :=
  if c.static_masking && !c.mask_words then
    Except.error "static_masking=true is only supported for mask_words=true"
  else Except.ok ()

/-- C7: constructing with `static_masking = true` and `mask_words = false`
fails at construction with the descriptive `ValueError` message; every other
combination of the two flags passes the constructor validation. -/
theorem init_check_spec (c : Config) :
    (c.static_masking = true → c.mask_words = false →
      init_check c = Except.error "static_masking=true is only supported for mask_words=true")
    ∧ ((c.static_masking = false ∨ c.mask_words = true) → init_check c = Except.ok ()) := by
  unfold init_check
  refine ⟨fun h1 h2 => ?_, fun h => ?_⟩
  · rw [h1, h2]
    rfl
  · rcases h with h | h <;> simp [h]

/-- C7 witness: the constructor validation evaluated at the rejected flag
combination and at an accepted one. -/
theorem init_check_spec_witness :
    init_check {cfgA with static_masking := true, mask_words := false}
      = Except.error "static_masking=true is only supported for mask_words=true"
    ∧ init_check {cfgA with static_masking := false} = Except.ok () :=
  ⟨(init_check_spec {cfgA with static_masking := true, mask_words := false}).1 rfl rfl,
   (init_check_spec {cfgA with static_masking := false}).2 (Or.inl rfl)⟩

/-- A split of the source `DatasetDict` as far as `_prepare_dataset`
inspects it directly: its `column_names` (the row payload lives behind the
abstract stage functions). -/
structure Split where
  column_names : List String
deriving DecidableEq

/-- A `DatasetDict` with its `train` and `valid` splits. -/
structure DatasetDict where
  train : Split
  valid : Split
deriving DecidableEq

/-- The keyword arguments `_prepare_dataset` passes to `_tokenize_dataset`:
`padding`, `truncation`, `max_length`, `return_word_ids`. -/
structure TokenizeArgs where
  padding : Bool
  truncation : Bool
  max_length : Option Nat
  return_word_ids : Bool
deriving DecidableEq

/-- `TextDataModule._prepare_dataset`.  The stage bodies wrap the external
tokenizer and dataset map engine, so they are parameters: `tokenize` for
`_tokenize_dataset` (fallible), `chunkStage` for `_chunk_dataset` (receiving
`chunk_size` and `include_keys`), `maskStage` for `_mask_dataset`.  The task
dispatch, the argument wiring and the two `assert "label" in ...` checks of
the `clf` branch are the code embedded here; a failed Python `assert` is an
`Except.error`. -/
def prepareDataset (tokenize : TokenizeArgs → DatasetDict → Except String DatasetDict)
    (chunkStage : Nat → List String → DatasetDict → DatasetDict)
    (maskStage : DatasetDict → DatasetDict)
    (c : Config) (dd : DatasetDict) : Except String DatasetDict :=
  if c.task = Task.clm then
    match tokenize ⟨false, false, none, false⟩ dd with
    | Except.error e => Except.error e
    | Except.ok d => Except.ok (chunkStage (c.max_seq_len + 1) ["input_ids"] d)
  else if c.task = Task.mlm then
    match tokenize ⟨false, false, none, true⟩ dd with
    | Except.error e => Except.error e
    | Except.ok d =>
      let d2 := chunkStage c.max_seq_len ["input_ids", "word_ids"] d
      Except.ok (if c.static_masking then maskStage d2 else d2)
  else
    if "label" ∈ dd.train.column_names then
      if "label" ∈ dd.valid.column_names then
        tokenize ⟨false, true, some c.max_seq_len, false⟩ dd
      else Except.error "assert: label not in valid column_names"
    else Except.error "assert: label not in train column_names"

/-- C8: for the classification task, if either split lacks the `label`
column, `_prepare_dataset` fails via the explicit assertion, and the result
is the same for arbitrary stage functions: no tokenization or other
processing is performed before the failure. -/
theorem clf_label_assert
    (tok tok' : TokenizeArgs → DatasetDict → Except String DatasetDict)
    (cs cs' : Nat → List String → DatasetDict → DatasetDict)
    (ms ms' : DatasetDict → DatasetDict)
    (c : Config) (dd : DatasetDict)
    (htask : c.task = Task.clf)
    (hmiss : "label" ∉ dd.train.column_names ∨ "label" ∉ dd.valid.column_names) :
    (prepareDataset tok cs ms c dd = Except.error "assert: label not in train column_names"
      ∨ prepareDataset tok cs ms c dd = Except.error "assert: label not in valid column_names")
    ∧ prepareDataset tok cs ms c dd = prepareDataset tok' cs' ms' c dd := by
  by_cases ht : "label" ∈ dd.train.column_names
  · rcases hmiss with hm | hm
    · exact absurd ht hm
    · exact ⟨Or.inr (by simp [prepareDataset, htask, ht, hm]),
        by simp [prepareDataset, htask, ht, hm]⟩
  · exact ⟨Or.inl (by simp [prepareDataset, htask, ht]),
      by simp [prepareDataset, htask, ht]⟩

/-- A concrete classification configuration for the witnesses. -/
def cfgClf : Config := {cfgA with task := Task.clf}

/-- A source dataset whose `valid` split lacks the `label` column. -/
def ddMissing : DatasetDict := ⟨⟨["text", "label"]⟩, ⟨["text"]⟩⟩

/-- C8 witness: on a concrete clf configuration and dataset missing `label`
in `valid`, the result is identical for two tokenizers that behave
differently, so no tokenization work influenced it. -/
theorem clf_label_assert_witness :
    prepareDataset (fun _ dd => Except.ok dd) (fun _ _ d => d) id cfgClf ddMissing
      = prepareDataset (fun _ _ => Except.error "tokenizer ran") (fun _ _ d => d) id
          cfgClf ddMissing :=
  (clf_label_assert (fun _ dd => Except.ok dd) (fun _ _ => Except.error "tokenizer ran")
    (fun _ _ d => d) (fun _ _ d => d) id id cfgClf ddMissing rfl (Or.inr (by decide))).2

/-- `TextDataModule.prepare_data`: checks `os.path.exists(self.preproc_dir)`
against the file system (modelled as the list `fs` of existing paths); when
absent it runs `load_source_dataset` (a parameter: the abstract collaborator),
then `_prepare_dataset`, and only then `save_to_disk` (which adds the cache
path).  The returned pair is the file system afterwards and the raised
exception, if any. -/
def prepare_data (digest : String → String)
    (loadSource : Except String DatasetDict)
    (tokenize : TokenizeArgs → DatasetDict → Except String DatasetDict)
    (chunkStage : Nat → List String → DatasetDict → DatasetDict)
    (maskStage : DatasetDict → DatasetDict)
    (c : Config) (fs : List String) : List String × Option String :=
  if preproc_dir digest c ∈ fs then (fs, none)
  else
    match loadSource with
    | Except.error e => (fs, some e)
    | Except.ok dd =>
      match prepareDataset tokenize chunkStage maskStage c dd with
      | Except.error e => (fs, some e)
      | Except.ok _ => (fs ++ [preproc_dir digest c], none)

/-- C9: `prepare_data` loads, preprocesses and writes the cache artifact only
when the cache directory for the current key is absent; when it is present
nothing runs (the result is independent of the loader and all stage
functions) and the file system is unchanged; and on any load or preprocessing
failure no artifact is written, since the write happens only after the full
split has been prepared. -/
theorem prepare_data_cache (digest : String → String)
    (load load' : Except String DatasetDict)
    (tok tok' : TokenizeArgs → DatasetDict → Except String DatasetDict)
    (cs cs' : Nat → List String → DatasetDict → DatasetDict)
    (ms ms' : DatasetDict → DatasetDict)
    (c : Config) (fs : List String) :
    (preproc_dir digest c ∈ fs →
      prepare_data digest load tok cs ms c fs = (fs, none)
      ∧ prepare_data digest load tok cs ms c fs = prepare_data digest load' tok' cs' ms' c fs)
    ∧ (preproc_dir digest c ∉ fs →
      (∀ dd dd2, load = Except.ok dd → prepareDataset tok cs ms c dd = Except.ok dd2 →
        prepare_data digest load tok cs ms c fs = (fs ++ [preproc_dir digest c], none))
      ∧ (∀ e, load = Except.error e → prepare_data digest load tok cs ms c fs = (fs, some e))
      ∧ (∀ dd e, load = Except.ok dd → prepareDataset tok cs ms c dd = Except.error e →
        prepare_data digest load tok cs ms c fs = (fs, some e))) := by
  refine ⟨fun hmem => ⟨?_, ?_⟩,
    fun hmem => ⟨fun dd dd2 hl hp => ?_, fun e hl => ?_, fun dd e hl hp => ?_⟩⟩
  · simp [prepare_data, hmem]
  · simp [prepare_data, hmem]
  · simp [prepare_data, hmem, hl, hp]
  · simp [prepare_data, hmem, hl]
  · simp [prepare_data, hmem, hl, hp]

/-- C9 witness: with the cache path already present, `prepare_data` returns
the file system unchanged and raises nothing. -/
theorem prepare_data_cache_witness :
    prepare_data id (Except.ok ⟨⟨["text"]⟩, ⟨["text"]⟩⟩) (fun _ dd => Except.ok dd)
      (fun _ _ d => d) id cfgA [preproc_dir id cfgA] = ([preproc_dir id cfgA], none) :=
  ((prepare_data_cache id (Except.ok ⟨⟨["text"]⟩, ⟨["text"]⟩⟩)
      (Except.ok ⟨⟨["text"]⟩, ⟨["text"]⟩⟩) (fun _ dd => Except.ok dd) (fun _ dd => Except.ok dd)
      (fun _ _ d => d) (fun _ _ d => d) id id cfgA [preproc_dir id cfgA]).1
    (List.mem_singleton.mpr rfl)).1

/-- `CLMDataset.__getitem__` on one fetched record:
`{"input_ids": record[:-1], "label_ids": record[1:]}`. -/
def clm_getitem (record : List Int) : List Int × List Int :=
  (record.dropLast, record.drop 1)

/-- `CLMDataset` over its underlying dataset of `input_ids` records. -/
def CLMDataset_getitem (ds : List (List Int)) (idx : Nat) : Option (List Int × List Int) :=
  (ds.get? idx).map clm_getitem

/-- C3: for a record of length `max_seq_len + 1`, `CLMDataset.__getitem__`
returns `input_ids` and `label_ids` of length `max_seq_len` with
`label_ids[k] = record[k+1]` for every valid `k`; the CLM pipeline branch of
`_prepare_dataset` chunks with `chunk_size = max_seq_len + 1` over the
`input_ids` field only; and every chunk emitted from a processing batch
holding at least `max_seq_len + 1` tokens has exactly that length,
establishing the precondition. -/
theorem clm_shift_correct (n : Nat) (record : List Int) (hrec : record.length = n + 1) :
    (clm_getitem record).1.length = n
    ∧ (clm_getitem record).2.length = n
    ∧ (∀ k, k < n → (clm_getitem record).2.get? k = record.get? (k + 1))
    ∧ (∀ tok cs ms (c : Config) (dd dd0 : DatasetDict), c.task = Task.clm →
        tok ⟨false, false, none, false⟩ dd = Except.ok dd0 →
        prepareDataset tok cs ms c dd = Except.ok (cs (c.max_seq_len + 1) ["input_ids"] dd0))
    ∧ (∀ (col0 : List (List Int)) (rest : List (List (List Int))) ch,
        n + 1 ≤ col0.flatten.length → ch ∈ (chunk (n + 1) (col0 :: rest)).headD [] →
        ch.length = n + 1) := by
  refine ⟨?_, ?_, fun k _ => ?_, fun tok cs ms c dd dd0 htask htok => ?_,
    fun col0 rest ch hL hch => ?_⟩
  · simp [clm_getitem, List.length_dropLast, hrec]
  · simp [clm_getitem, hrec]
  · rw [show (clm_getitem record).2 = record.drop 1 from rfl, List.get?_drop, Nat.add_comm]
  · simp [prepareDataset, htask, htok]
  · have htrunc : chunkTruncLen col0.flatten.length (n + 1)
        = col0.flatten.length / (n + 1) * (n + 1) := by
      unfold chunkTruncLen
      rw [if_pos hL]
    have hcount := chunkCount_ge col0.flatten.length (n + 1) (by omega)
    have hspec := chunkSlices_spec (n + 1) col0.flatten (col0.flatten.length / (n + 1))
      (Nat.div_mul_le_self _ _)
    rw [chunk_head, pyRange, htrunc, hcount, List.map_map] at hch
    exact hspec.2 ch hch

/-- C3 witness: the CLM shift evaluated on the record `[1, 2, 3]` with
`max_seq_len = 2`. -/
theorem clm_shift_correct_witness :
    (clm_getitem [1, 2, 3]).1.length = 2 ∧ (clm_getitem [1, 2, 3]).2.get? 0 = some 2 := by
  have h := clm_shift_correct 2 ([1, 2, 3] : List Int) rfl
  exact ⟨h.1, (h.2.2.1 0 (by omega)).trans rfl⟩

/-- An example as fetched from the underlying dataset: an insertion-ordered
mapping from field name to record. -/
abbrev Example := List (String × List Int)

/-- The per-field loop of `RandomShiftDataset.__getitem__`: iterates the
fields of `example_1`, looks each key up in `example_2` (a missing key is
Python's `KeyError`, hence `none`), draws the shift via the external
`torch.randint` collaborator `draw` only while `shift is None`, and emits
`record_1[shift:] + record_2[:shift]` per field. -/
def rsLoop (draw : Nat → Nat) (example_2 : Example) :
    Example → Option Nat → Option Example
  | [], _ => some []
  | (key, record_1) :: rest, shift =>
    match List.lookup key example_2 with
    | none => none
    | some record_2 =>
      let s := shift.getD (draw record_1.length)
      match rsLoop draw example_2 rest (some s) with
      | none => none
      | some tail => some ((key, record_1.drop s ++ record_2.take s) :: tail)

/-- `RandomShiftDataset.__getitem__`: fetches `example_1 = dataset[idx]` and
`example_2 = dataset[idx + 1]`, then runs the field loop starting with
`shift = None`. -/
def randomShiftGetitem (draw : Nat → Nat) (ds : List Example) (idx : Nat) : Option Example :=
  match ds.get? idx, ds.get? (idx + 1) with
  | some example_1, some example_2 => rsLoop draw example_2 example_1 none
  | _, _ => none

/-- `RandomShiftDataset.__len__`: `len(self.dataset) - 1` (Python integers,
so the subtraction is over `Int`). -/
def RandomShiftDataset_len (ds : List Example) : Int :=
  (ds.length : Int) - 1

/-- Once the shift is fixed, the field loop maps every remaining field to
`record_1[shift:] + record_2[:shift]` with that same shift. -/
theorem rsLoop_some (draw : Nat → Nat) (ex2 : Example) (s : Nat) :
    ∀ l : Example, (∀ p ∈ l, (List.lookup p.1 ex2).isSome) →
      rsLoop draw ex2 l (some s)
        = some (l.map fun p =>
            (p.1, p.2.drop s ++ ((List.lookup p.1 ex2).getD []).take s)) := by
  intro l
  induction l with
  | nil => intro _; rfl
  | cons hd tl ih =>
    intro hk
    obtain ⟨k1, r1⟩ := hd
    obtain ⟨r2, hr2⟩ := Option.isSome_iff_exists.mp (hk (k1, r1) (List.mem_cons_self _ _))
    have ihtl := ih (fun p hp => hk p (List.mem_cons_of_mem _ hp))
    simp [rsLoop, hr2, ihtl]

/-- C4: `RandomShiftDataset` has logical length `len(dataset) - 1`; fetching
index `i` draws one shift from `[0, len(record_1))` (the support of
`torch.randint`, modelled by the hypothesis on `draw`) and returns, for every
field, `example_i[field][shift:] + example_{i+1}[field][:shift]` with the
same shift value reused across all fields. -/
theorem random_shift_props (draw : Nat → Nat) (hdraw : ∀ m : Nat, 0 < m → draw m < m)
    (ds : List Example) (idx : Nat) (k0 : String) (r0 : List Int) (rest : Example)
    (ex2 : Example)
    (h1 : ds.get? idx = some ((k0, r0) :: rest))
    (h2 : ds.get? (idx + 1) = some ex2)
    (hkeys : ∀ p ∈ (k0, r0) :: rest, (List.lookup p.1 ex2).isSome) :
    RandomShiftDataset_len ds = (ds.length : Int) - 1
    ∧ (0 < r0.length → draw r0.length < r0.length)
    ∧ randomShiftGetitem draw ds idx
        = some (((k0, r0) :: rest).map fun p =>
            (p.1, p.2.drop (draw r0.length)
              ++ ((List.lookup p.1 ex2).getD []).take (draw r0.length))) := by
  refine ⟨rfl, fun hp => hdraw _ hp, ?_⟩
  obtain ⟨r2, hr2⟩ := Option.isSome_iff_exists.mp (hkeys (k0, r0) (List.mem_cons_self _ _))
  have htl := rsLoop_some draw ex2 (draw r0.length) rest
    (fun p hp => hkeys p (List.mem_cons_of_mem _ hp))
  simp only [randomShiftGetitem]
  rw [h1, h2]
  simp [rsLoop, hr2, htl]

/-- C4 witness: a two-example dataset with aligned `input_ids` and `word_ids`
fields and the draw `m - 1` (shift 2): both fields are shifted by the same
offset. -/
theorem random_shift_props_witness :
    randomShiftGetitem (fun m => m - 1)
      [[("input_ids", [1, 2, 3]), ("word_ids", [7, 8, 9])],
       [("input_ids", [4, 5, 6]), ("word_ids", [10, 11, 12])]] 0
      = some [("input_ids", [3, 4, 5]), ("word_ids", [9, 10, 11])] := by
  have h := (random_shift_props (fun m => m - 1) (fun m hm => show m - 1 < m by omega)
    [[("input_ids", [1, 2, 3]), ("word_ids", [7, 8, 9])],
     [("input_ids", [4, 5, 6]), ("word_ids", [10, 11, 12])]] 0
    "input_ids" [1, 2, 3] [("word_ids", [7, 8, 9])]
    [("input_ids", [4, 5, 6]), ("word_ids", [10, 11, 12])]
    rfl rfl (by decide)).2.2
  rw [h]
  rfl

/-- `TextPreprocessor.preprocess_batch`: invokes the external tokenizer on
the batch (a parameter returning `input_ids` and `attention_mask` rows) and
returns the ids together with the negated attention mask
(`~result["attention_mask"]`). -/
def preprocess_batch (tokenize : List String → List (List Int) × List (List Bool))
    (text_batch : List String) : List (List Int) × List (List Bool) :=
  let result := tokenize text_batch
  (result.1, result.2.map (fun row => row.map (fun b => !b)))

/-- `TextPreprocessor.preprocess`: `xs, pad_mask = self.preprocess_batch([text])`
then `xs[0], pad_mask[0]` (an out-of-range index is Python's `IndexError`,
hence `none`). -/
def preprocess (tokenize : List String → List (List Int) × List (List Bool))
    (text : String) : Option (List Int × List Bool) :=
  match (preprocess_batch tokenize [text]).1.get? 0,
      (preprocess_batch tokenize [text]).2.get? 0 with
  | some xs, some pad_mask => some (xs, pad_mask)
  | _, _ => none

/-- C10: for every tokenizer behaviour and input text, `preprocess(text)`
returns exactly the first row of each tensor returned by
`preprocess_batch([text])`. -/
theorem preprocess_single_first_row
    (tokenize : List String → List (List Int) × List (List Bool))
    (text : String) (xs : List Int) (pad_mask : List Bool)
    (h1 : (preprocess_batch tokenize [text]).1.get? 0 = some xs)
    (h2 : (preprocess_batch tokenize [text]).2.get? 0 = some pad_mask) :
    preprocess tokenize text = some (xs, pad_mask) := by
  unfold preprocess
  rw [h1, h2]

/-- C10 witness: a concrete tokenizer returning one row per text. -/
theorem preprocess_single_first_row_witness :
    preprocess (fun b => (b.map (fun _ => [101, 102]), b.map (fun _ => [true, false]))) "hello"
      = some ([101, 102], [false, true]) :=
  preprocess_single_first_row
    (fun b => (b.map (fun _ => [101, 102]), b.map (fun _ => [true, false])))
    "hello" [101, 102] [false, true] rfl rfl

end PerceiverText
